import Mathlib

/-!
Verification of the ElectricSheep dual-memory system against its
natural-language specification.

The development shallowly embeds the memory subsystem
(src/electricsheep/memory.py), the dream-cycle pipeline
(src/electricsheep/dreamer.py) and the relevant configuration
(src/electricsheep/config.py) as executable Lean definitions, and proves
or refutes the frozen claims about them.

Modelling conventions:
- Python strings are Lean Strings; the Python string operations used by
  the source (strip, lstrip, upper, startswith, split, join, slicing,
  replace) are re-implemented structurally over the underlying character
  lists so that every definition kernel-evaluates on concrete inputs.
- A decrypted JSON value is abstracted by its serialized text (a String);
  Fernet encryption is abstracted as a Blob that either decrypts to its
  plaintext or is corrupt (decryption or deserialization raises).
- The SQLite table deep_memories is a Lean list of records in rowid
  (insertion) order; the query WHERE dreamed = 0 ORDER BY timestamp is a
  filter followed by a stable insertion sort on the timestamp, matching
  the order SQLite produces when scanning idx_deep_dreamed (within equal
  timestamps, rows come out in rowid order).
- The SHA-256 content digest is abstracted by the plaintext itself; no
  claim depends on the digest function.
- The effectful pipeline is a pure function from an explicit system state
  (deep store, working store, agent state, dream archive) plus the
  outcome of the external generation collaborator to the post-state; it also
  emits the ordered list of mutation events it performs, so that ordering
  properties can be stated about every intermediate state.
-/

namespace ElectricSheep

/-! ## Python string primitives, re-implemented structurally -/

/-- Characters treated as whitespace by Python str.strip(). -/
def isPySpace (c : Char) : Bool :=
  c = ' ' || c = '\t' || c = '\n' || c = '\r' || c.toNat = 11 || c.toNat = 12

/-- Strip characters satisfying p from both ends of a character list. -/
def stripBy (p : Char → Bool) (l : List Char) : List Char :=
  ((l.dropWhile p).reverse.dropWhile p).reverse

/-- Python str.strip() with no argument: trim whitespace from both ends. -/
def pyStrip (s : String) : String :=
  ⟨stripBy isPySpace s.data⟩

/-- Python str.lstrip(chars): drop leading characters from the given set. -/
def pyLstrip (p : Char → Bool) (s : String) : String :=
  ⟨s.data.dropWhile p⟩

/-- Python str.upper(), on the ASCII range the source feeds it. -/
def pyUpper (s : String) : String :=
  ⟨s.data.map Char.toUpper⟩

/-- Core of Python str.split(sep) for a single-character separator. -/
def splitCh (c : Char) : List Char → List (List Char)
  | [] => [[]]
  | x :: xs =>
    match splitCh c xs with
    | [] => [[]]
    | h :: t => if x = c then [] :: h :: t else (x :: h) :: t

/-- Python text.split(chr(10)): split into lines, keeping empty pieces. -/
def pySplitLines (s : String) : List String :=
  (splitCh '\n' s.data).map fun l => ⟨l⟩

/-- The remainder of a character list after its first occurrence of c
(Python s.split(c, 1)[1]); empty when c does not occur, a case the
source guards against before indexing. -/
def afterCh (c : Char) : List Char → List Char
  | [] => []
  | x :: xs => if x = c then xs else afterCh c xs

/-- Python line.split(chr(58), 1)[1]: the text after the first colon. -/
def afterColon (s : String) : String :=
  ⟨afterCh ':' s.data⟩

/-- Python s[:n] for strings: take the first n characters. -/
def pyTake (n : Nat) (s : String) : String :=
  ⟨s.data.take n⟩

/-- Python s.startswith(p), via the underlying character lists. -/
def pyStartsWith (p s : String) : Bool :=
  p.data.isPrefixOf s.data

/-! ## Configuration (src/electricsheep/config.py) -/

/-- WORKING_MEMORY_MAX_ENTRIES = 50: max compressed memories kept in
working memory. -/
def WORKING_MEMORY_MAX_ENTRIES : Nat := 50

/-! ## Data model -/

/-- The opaque metadata mapping optionally attached to a working-memory
entry (a Python dict, abstracted as an association list). -/
abbrev Metadata : Type := List (String × String)

/-- One entry of the working-memory JSON list, as built by
store_working_memory: a timestamp, a category, a summary, and the
metadata key only when a non-empty mapping was supplied. -/
structure WMEntry where
  timestamp : String
  category : String
  summary : String
  metadata : Option Metadata
deriving DecidableEq

/-- An encrypted deep-memory blob, abstracted by its decryption outcome:
valid ciphertext decrypts (and deserializes) back to its plaintext,
corrupt ciphertext makes cipher.decrypt or json.loads raise. -/
inductive Blob where
  | valid (plaintext : String) : Blob
  | corrupt : Blob
deriving DecidableEq

/-- One row of the deep_memories SQLite table. The rowid is id, dreamed
is the processed flag, dream_date the processedAt stamp. The SHA-256
digest content_hash is abstracted by the plaintext. -/
structure DeepRecord where
  id : Nat
  timestamp : String
  category : String
  blob : Blob
  content_hash : String
  dreamed : Bool
  dream_date : Option String
deriving DecidableEq

/-- One element of the list returned by retrieve_undreamed_memories: a
decrypted record as a Python dict with keys id, timestamp, category,
content. -/
structure DecryptedRecord where
  id : Nat
  timestamp : String
  category : String
  content : String
deriving DecidableEq

/-- The parsed dream artifact returned by generate_dream. -/
structure Dream where
  title : String
  narrative : String
  consolidation : String
deriving DecidableEq

/-- The state.json checkpoint dict, restricted to the keys the embedded
code reads or writes; absent keys are none. -/
structure AgentState where
  last_dream : Option String
  dream_count : Option Nat
  total_dreams : Option Nat
  latest_dream_title : Option String
deriving DecidableEq

/-- The persistent system state the embedded operations act on: the
deep_memories table, the working-memory list, the state.json checkpoint
and the dreams directory (filename, file content). -/
structure Sys where
  deep : List DeepRecord
  working : List WMEntry
  agent : AgentState
  archive : List (String × String)
deriving DecidableEq

/-- An error raised by the external generation collaborator
(anthropic API failure), abstracted by a message. -/
structure GenError where
  msg : String
deriving DecidableEq

/-- A storage-layer error (SQLite or crypto failure) raised by a store
write, abstracted by a message. -/
structure StoreErr where
  msg : String
deriving DecidableEq

/-! ## Working Store (memory.py lines 177-254) -/

/-- The entry dict built by store_working_memory lines 194-200: the
metadata key is added only when the argument is truthy (not None and
non-empty). -/
def wmEntryOf (now summary category : String) (metadata : Option Metadata) : WMEntry :=
  { timestamp := now
    category := category
    summary := summary
    metadata :=
      match metadata with
      | some md => if md.isEmpty then none else some md
      | none => none }

/-- store_working_memory (memory.py lines 187-208): append the new entry,
then prune to the most recent WORKING_MEMORY_MAX_ENTRIES when over the
limit (Python memories[-MAX:]). The current timestamp is passed in as
now. -/
def store_working_memory (now summary category : String) (metadata : Option Metadata)
    (memories : List WMEntry) : List WMEntry :=
  let ms := memories ++ [wmEntryOf now summary category metadata]
  if ms.length > WORKING_MEMORY_MAX_ENTRIES then
    ms.drop (ms.length - WORKING_MEMORY_MAX_ENTRIES)
  else ms

/-- The last n elements of a list (Python l[-n:] for 0 < n ≤ len). -/
def lastN (n : Nat) (l : List α) : List α :=
  l.drop (l.length - n)

/-- consolidate_dream_insight (memory.py lines 246-254): promote a dream
insight into working memory under the dream_consolidation category. -/
def consolidate_dream_insight (now insight : String) (w : List WMEntry) : List WMEntry :=
  store_working_memory now (("[DREAM INSIGHT] ") ++ insight) ("dream_consolidation") none w

/-- The line rendered for one entry by get_working_memory_context line
236. -/
def contextLine (mem : WMEntry) : String :=
  ("[") ++ pyTake 16 mem.timestamp ++ ("] (") ++ mem.category ++ (") ") ++ mem.summary

/-- The synthetic line inserted when older entries are omitted
(get_working_memory_context line 238). -/
def omittedLine (n : Nat) : String :=
  ("... (") ++ toString n ++ (" older memories omitted)")

/-- The loop of get_working_memory_context lines 235-241: walk the
entries from most recent backward, prepending each rendered line while
the character budget allows, else prepend the omitted-count line and
stop. rest is the reversed tail still to visit. -/
def contextLoop (char_budget total : Nat) : List WMEntry → Nat → List String → List String
  | [], _, lines => lines
  | mem :: rest, char_count, lines =>
    let line := contextLine mem
    if char_count + line.length > char_budget then
      omittedLine (total - lines.length) :: lines
    else
      contextLoop char_budget total rest (char_count + line.length) (line :: lines)

/-- get_working_memory_context (memory.py lines 224-243): the fixed
first-day sentence when working memory is empty, otherwise the
newline-joined budgeted view. -/
def get_working_memory_context (memories : List WMEntry) (max_tokens_approx : Nat) : String :=
  if memories.isEmpty then ("No memories yet. This is my first day.")
  else
    let char_budget := max_tokens_approx * 4
    String.intercalate ("\n") (contextLoop char_budget memories.length memories.reverse 0 [])

/-! ## Deep Store (memory.py lines 53-171) -/

/-- Strict lexicographic order on character lists, the order that the SQLite
ORDER BY uses on the ISO-8601 timestamp TEXT column (byte-wise, which on
these ASCII strings is code-point-wise). -/
def lexLt : List Char → List Char → Bool
  | [], [] => false
  | [], _ :: _ => true
  | _ :: _, [] => false
  | a :: as, b :: bs =>
    if a < b then true
    else if b < a then false
    else lexLt as bs

/-- Timestamp comparison between the TEXT timestamps of two records. -/
def tsLt (a b : String) : Bool := lexLt a.data b.data

/-- Stable insertion of a record into a timestamp-sorted list: the new
record goes before the first existing record whose timestamp is not
strictly smaller, so records with equal timestamps keep their relative
(rowid) order. -/
def insertByTs (r : DeepRecord) : List DeepRecord → List DeepRecord
  | [] => [r]
  | x :: xs => if tsLt x.timestamp r.timestamp then x :: insertByTs r xs else r :: x :: xs

/-- Stable sort of the rowid-ordered rows by timestamp: the result of
ORDER BY timestamp over a scan of idx_deep_dreamed, where ties come out
in rowid order. -/
def sortByTs (l : List DeepRecord) : List DeepRecord :=
  l.foldr insertByTs []

/-- The AUTOINCREMENT rowid for the next insert: one past the largest id
used so far. -/
def nextId (deep : List DeepRecord) : Nat :=
  (deep.map (·.id)).foldr max 0 + 1

/-- store_deep_memory (memory.py lines 75-96): serialize, hash and
encrypt the content and append a row with dreamed = 0. The current
timestamp is passed in as now, the serialized JSON content as a
string. -/
def store_deep_memory (now content category : String) (deep : List DeepRecord) : List DeepRecord :=
  deep ++ [{ id := nextId deep
             timestamp := now
             category := category
             blob := Blob.valid content
             content_hash := content
             dreamed := false
             dream_date := none }]

/-- The placeholder content substituted for an unrecoverable record
(memory.py line 130), as serialized JSON text. -/
def corruptedPlaceholder : String :=
  ("\x7b\"note\": \"This memory could not be recovered.\"\x7d")

/-- The loop body of retrieve_undreamed_memories (memory.py lines
115-131): decrypt one row; the except branch substitutes category
corrupted and placeholder content instead of raising. -/
def decodeRow (r : DeepRecord) : DecryptedRecord :=
  match r.blob with
  | Blob.valid c =>
    { id := r.id, timestamp := r.timestamp, category := r.category, content := c }
  | Blob.corrupt =>
    { id := r.id, timestamp := r.timestamp, category := ("corrupted")
      content := corruptedPlaceholder }

/-- retrieve_undreamed_memories (memory.py lines 99-133): select the rows
with dreamed = 0 ordered by timestamp (ties in rowid order, see
sortByTs), then decrypt each row; a row whose decryption or
deserialization raises is still returned, with category corrupted and
placeholder content. -/
def retrieve_undreamed_memories (deep : List DeepRecord) : List DecryptedRecord :=
  (sortByTs (deep.filter fun r => !r.dreamed)).map decodeRow

/-- mark_as_dreamed (memory.py lines 136-150): no-op on an empty id
list, otherwise UPDATE deep_memories SET dreamed = 1, dream_date = now
WHERE id IN memory_ids; every listed row is stamped with the call time,
whether or not it was already dreamed. -/
def mark_as_dreamed (now : String) (memory_ids : List Nat) (deep : List DeepRecord) :
    List DeepRecord :=
  if memory_ids.isEmpty then deep
  else
    deep.map fun r =>
      if memory_ids.contains r.id then { r with dreamed := true, dream_date := some now }
      else r

/-! ## Dream pipeline (dreamer.py) -/

/-- The guard of dreamer.py line 78: does this line, trimmed and
upper-cased, start with the CONSOLIDATION sentinel? -/
def isConsolidationLine (line : String) : Bool :=
  pyStartsWith ("CONSOLIDATION:") (pyUpper (pyStrip line))

/-- The extraction of dreamer.py line 79: the text after the first colon
of the trimmed line, trimmed. -/
def consolidationOf (line : String) : String :=
  pyStrip (afterColon (pyStrip line))

/-- One iteration of the loop of dreamer.py lines 77-81: a CONSOLIDATION
line overwrites the consolidation accumulator and is dropped from the
narrative; every other line is appended to the narrative lines. -/
def dreamStep (acc : String × List String) (line : String) : String × List String :=
  if isConsolidationLine line then (consolidationOf line, acc.2)
  else (acc.1, acc.2 ++ [line])

/-- The loop of dreamer.py lines 75-81 over the lines after the title. -/
def parse_dream_lines (ls : List String) : String × List String :=
  ls.foldl dreamStep (("" : String), ([] : List String))

/-- generate_dream (dreamer.py lines 34-89), given the text the
generation collaborator returned (resp.content[0].text): strip it, take
the first line as title (trimmed, leading hash markers and spaces
stripped, trimmed again), extract consolidation lines from the rest, and
join what remains into the narrative. -/
def generate_dream (response_text : String) : Dream :=
  let text := pyStrip response_text
  let lines := pySplitLines text
  let title := pyStrip (pyLstrip (fun c => c = '#' || c = ' ') (pyStrip (lines.headD (""))))
  let parsed := parse_dream_lines (lines.drop 1)
  { title := title
    narrative := pyStrip (String.intercalate ("\n") parsed.2)
    consolidation := parsed.1 }

/-- save_dream_locally (dreamer.py lines 92-106), reduced to the pair
(filename, file content) it writes into the dreams directory. -/
def save_dream_locally (dream : Dream) (date_str : String) : String × String :=
  let fname := date_str ++ ("_") ++
    ⟨(dream.title.data.take 40).map fun c => if c = ' ' || c = '/' then '_' else c⟩ ++ (".md")
  let content := ("# ") ++ dream.title ++ ("\n*Dreamed: ") ++ date_str ++ ("*\n\n") ++
    dream.narrative ++ ("\n\n---\n**Consolidation:** ") ++ dream.consolidation ++ ("\n")
  (fname, content)

/-- One primitive mutation performed against the persistent state, in the
order the source performs them. -/
inductive Event where
  | archiveWrite (filename content : String) : Event
  | promote (now insight : String) : Event
  | mark (now : String) (ids : List Nat) : Event
  | stateSave (a : AgentState) : Event
  | workingWrite (now summary category : String) (metadata : Option Metadata) : Event
  | deepWrite (now content category : String) : Event
deriving DecidableEq

/-- The effect of one mutation event on the system state. -/
def applyEvent (s : Sys) : Event → Sys
  | Event.archiveWrite f c => { s with archive := s.archive ++ [(f, c)] }
  | Event.promote now insight => { s with working := consolidate_dream_insight now insight s.working }
  | Event.mark now ids => { s with deep := mark_as_dreamed now ids s.deep }
  | Event.stateSave a => { s with agent := a }
  | Event.workingWrite now summary category md =>
    { s with working := store_working_memory now summary category md s.working }
  | Event.deepWrite now content category =>
    { s with deep := store_deep_memory now content category s.deep }

/-- Apply a sequence of mutation events in order. -/
def applyEvents (s : Sys) (evs : List Event) : Sys :=
  evs.foldl applyEvent s

/-- run_dream_cycle (dreamer.py lines 109-170) as the mutation events it
performs in order, together with its outcome. gen is the outcome of the
single generation-collaborator call (dreamer.py line 53): an exception
from it propagates out of the cycle before any mutation. now is the
current UTC timestamp, date_str its calendar date. -/
def cycleEvents (gen : Except GenError String) (now date_str : String) (s : Sys) :
    List Event × Except GenError (Option Dream) :=
  let memories := retrieve_undreamed_memories s.deep
  if memories.isEmpty then
    ([Event.stateSave { s.agent with last_dream := some now, dream_count := some 0 }],
     Except.ok none)
  else
    match gen with
    | Except.error e => ([], Except.error e)
    | Except.ok text =>
      let dream := generate_dream text
      let file := save_dream_locally dream date_str
      let promoteEvs :=
        if dream.consolidation = ("") then [] else [Event.promote now dream.consolidation]
      let ids := memories.map (·.id)
      let exitState : AgentState :=
        { s.agent with
          last_dream := some now
          total_dreams := some (s.agent.total_dreams.getD 0 + 1)
          latest_dream_title := some dream.title }
      ([Event.archiveWrite file.1 file.2] ++ promoteEvs ++
        [Event.mark now ids, Event.stateSave exitState],
       Except.ok (some dream))

/-- The net effect of run_dream_cycle: the post-state after all its events,
and its outcome (the dream, none for a dreamless night, or the
propagated generation error). -/
def run_dream_cycle (gen : Except GenError String) (now date_str : String) (s : Sys) :
    Sys × Except GenError (Option Dream) :=
  let r := cycleEvents gen now date_str s
  (applyEvents s r.1, r.2)

/-! ## Memory Facade (memory.py lines 260-268) -/

/-- remember (memory.py lines 260-268): store the summary in working
memory, then the full context in deep memory, both under category.
deepFailure models an exception raised inside store_deep_memory (SQLite
or crypto failure): it propagates out of remember after the working
write already happened, with no rollback. Returns the post-state, the
mutation events performed in order, and the surfaced error if any. -/
def remember (now summary full_context category : String) (deepFailure : Option StoreErr)
    (s : Sys) : Sys × List Event × Option StoreErr :=
  let s1 := { s with working := store_working_memory now summary category none s.working }
  match deepFailure with
  | some e => (s1, [Event.workingWrite now summary category none], some e)
  | none =>
    ({ s1 with deep := store_deep_memory now full_context category s1.deep },
     [Event.workingWrite now summary category none,
      Event.deepWrite now full_context category],
     none)

/-! ## Order lemmas for the timestamp comparison -/

theorem lexLt_trans {a b c : List Char} (h1 : lexLt a b = true) (h2 : lexLt b c = true) :
    lexLt a c = true := by
  induction a generalizing b c with
  | nil =>
    cases c with
    | nil =>
      cases b with
      | nil => simp [lexLt] at h1
      | cons y ys => simp [lexLt] at h2
    | cons z zs => simp [lexLt]
  | cons x xs ih =>
    cases b with
    | nil => simp [lexLt] at h1
    | cons y ys =>
      cases c with
      | nil => simp [lexLt] at h2
      | cons z zs =>
        by_cases hxy : x < y
        · by_cases hyz : y < z
          · simp [lexLt, lt_trans hxy hyz]
          · by_cases hzy : z < y
            · simp [lexLt, hyz, hzy] at h2
            · have he : y = z := le_antisymm (not_lt.mp hzy) (not_lt.mp hyz)
              subst he
              simp [lexLt, hxy]
        · by_cases hyx : y < x
          · simp [lexLt, hxy, hyx] at h1
          · have he : x = y := le_antisymm (not_lt.mp hyx) (not_lt.mp hxy)
            subst he
            simp [lexLt, hxy] at h1
            by_cases hxz : x < z
            · simp [lexLt, hxz]
            · by_cases hzx : z < x
              · simp [lexLt, hxz, hzx] at h2
              · have he2 : x = z := le_antisymm (not_lt.mp hzx) (not_lt.mp hxz)
                subst he2
                simp [lexLt, hxz] at h2 ⊢
                exact ih h1 h2

theorem eq_of_lexLt_false {a b : List Char} (h1 : lexLt a b = false) (h2 : lexLt b a = false) :
    a = b := by
  induction a generalizing b with
  | nil =>
    cases b with
    | nil => rfl
    | cons y ys => simp [lexLt] at h1
  | cons x xs ih =>
    cases b with
    | nil => simp [lexLt] at h2
    | cons y ys =>
      simp only [lexLt] at h1 h2
      split_ifs at h1 h2 with hxy hyx
      · have hxy' : x = y := le_antisymm (not_lt.mp hyx) (not_lt.mp hxy)
        rw [hxy', ih h1 h2]

/-- Totality of the timestamp order at the String level. -/
theorem tsLt_total (a b : String) (h : tsLt a b = false) : tsLt b a = true ∨ a = b := by
  rcases hba : tsLt b a with _ | _
  · right
    have : a.data = b.data := eq_of_lexLt_false h hba
    cases a; cases b
    exact congrArg String.mk this

  · left; rfl

theorem tsLt_trans {a b c : String} (h1 : tsLt a b = true) (h2 : tsLt b c = true) :
    tsLt a c = true := lexLt_trans h1 h2

/-! ## Sort lemmas for the deep-memory query -/

/-- The output order the spec requires of listUnprocessed: timestamp
ascending, ties broken by id ascending. -/
def specOrder (a b : DecryptedRecord) : Prop :=
  tsLt a.timestamp b.timestamp = true ∨ (a.timestamp = b.timestamp ∧ a.id < b.id)

/-- The same order on raw deep rows. -/
def rowOrder (a b : DeepRecord) : Prop :=
  tsLt a.timestamp b.timestamp = true ∨ (a.timestamp = b.timestamp ∧ a.id < b.id)

theorem insertByTs_perm (r : DeepRecord) (l : List DeepRecord) :
    (insertByTs r l).Perm (r :: l) := by
  induction l with
  | nil => simp [insertByTs]
  | cons x xs ih =>
    by_cases h : tsLt x.timestamp r.timestamp = true
    · have h1 : insertByTs r (x :: xs) = x :: insertByTs r xs := by simp [insertByTs, h]
      rw [h1]
      exact (ih.cons x).trans (List.Perm.swap r x xs)
    · simp [insertByTs, h]

theorem sortByTs_perm (l : List DeepRecord) : (sortByTs l).Perm l := by
  induction l with
  | nil => simp [sortByTs]
  | cons a l ih =>
    have h1 : sortByTs (a :: l) = insertByTs a (sortByTs l) := rfl
    rw [h1]
    exact (insertByTs_perm a (sortByTs l)).trans (ih.cons a)

theorem mem_insertByTs {y r : DeepRecord} {l : List DeepRecord} :
    y ∈ insertByTs r l ↔ y = r ∨ y ∈ l :=
  ⟨fun h => by simpa using (insertByTs_perm r l).mem_iff.mp h,
   fun h => (insertByTs_perm r l).mem_iff.mpr (by simpa using h)⟩

theorem pairwise_insertByTs (r : DeepRecord) (l : List DeepRecord)
    (hl : l.Pairwise rowOrder) (hid : ∀ x ∈ l, r.id < x.id) :
    (insertByTs r l).Pairwise rowOrder := by
  induction l with
  | nil => simp [insertByTs]
  | cons x xs ih =>
    rcases List.pairwise_cons.mp hl with ⟨hx, hxs⟩
    by_cases h : tsLt x.timestamp r.timestamp = true
    · have hrec := ih hxs (fun y hy => hid y (List.mem_cons_of_mem x hy))
      have hhead : ∀ y ∈ insertByTs r xs, rowOrder x y := by
        intro y hy
        rcases mem_insertByTs.mp hy with rfl | hy'
        · exact Or.inl h
        · exact hx y hy'
      simpa [insertByTs, h] using List.pairwise_cons.mpr ⟨hhead, hrec⟩
    · have hrx : rowOrder r x := by
        rcases tsLt_total x.timestamp r.timestamp (by simpa using h) with ht | ht
        · exact Or.inl ht
        · exact Or.inr ⟨ht.symm, hid x (List.mem_cons_self x xs)⟩
      have hrest : ∀ y ∈ xs, rowOrder r y := by
        intro y hy
        rcases hx y hy with hty | ⟨hte, _⟩
        · rcases hrx with htr | ⟨hte', _⟩
          · exact Or.inl (tsLt_trans htr hty)
          · exact Or.inl (hte' ▸ hty)
        · rcases hrx with htr | ⟨hte', _⟩
          · exact Or.inl (hte ▸ htr)
          · exact Or.inr ⟨hte'.trans hte, hid y (List.mem_cons_of_mem x hy)⟩
      have : ∀ y ∈ x :: xs, rowOrder r y := by
        intro y hy
        rcases List.mem_cons.mp hy with rfl | hy'
        · exact hrx
        · exact hrest y hy'
      simpa [insertByTs, h] using List.pairwise_cons.mpr ⟨this, hl⟩

theorem sortByTs_pairwise (l : List DeepRecord)
    (h : l.Pairwise fun a b => a.id < b.id) : (sortByTs l).Pairwise rowOrder := by
  induction l with
  | nil => simp [sortByTs]
  | cons a l ih =>
    rcases List.pairwise_cons.mp h with ⟨ha, hl⟩
    exact pairwise_insertByTs a (sortByTs l) (ih hl)
      (fun x hx => ha x ((sortByTs_perm l).mem_iff.mp hx))

/-! ## lastN and the Working Store cap -/

theorem lastN_length_le (n : Nat) (l : List α) : (lastN n l).length ≤ n := by
  simp [lastN]
  omega

theorem store_working_memory_eq_lastN (now sm cat : String) (md : Option Metadata)
    (w : List WMEntry) :
    store_working_memory now sm cat md w =
      lastN WORKING_MEMORY_MAX_ENTRIES (w ++ [wmEntryOf now sm cat md]) := by
  simp only [store_working_memory, lastN]
  split
  · rfl
  · next h =>
    have h0 : (w ++ [wmEntryOf now sm cat md]).length - WORKING_MEMORY_MAX_ENTRIES = 0 := by
      simp only [List.length_append, List.length_singleton] at h ⊢
      omega
    rw [h0, List.drop_zero]

theorem lastN_append_one (n : Nat) (hn : 0 < n) (xs : List α) (e : α) :
    lastN n (lastN n xs ++ [e]) = lastN n (xs ++ [e]) := by
  rcases le_or_lt xs.length n with h | h
  · have h0 : xs.length - n = 0 := by omega
    simp [lastN, h0]
  · have hlen : (lastN n xs).length = n := by
      simp only [lastN, List.length_drop]
      omega
    have e1 : lastN n (lastN n xs ++ [e]) = List.drop 1 (lastN n xs) ++ [e] := by
      have hx : (lastN n xs ++ [e]).length - n = 1 := by
        simp only [List.length_append, List.length_singleton, hlen]
        omega
      rw [lastN, hx, List.drop_append_of_le_length (by omega)]
    have e2 : lastN n (xs ++ [e]) = List.drop (xs.length - n + 1) xs ++ [e] := by
      have hx : (xs ++ [e]).length - n = xs.length - n + 1 := by
        simp only [List.length_append, List.length_singleton]
        omega
      rw [lastN, hx, List.drop_append_of_le_length (by omega)]
    rw [e1, e2, lastN, List.drop_drop]

/-! ## Lemmas about the deep-memory query -/

theorem decodeRow_id (r : DeepRecord) : (decodeRow r).id = r.id := by
  unfold decodeRow
  cases r.blob <;> rfl

theorem decodeRow_timestamp (r : DeepRecord) : (decodeRow r).timestamp = r.timestamp := by
  unfold decodeRow
  cases r.blob <;> rfl

theorem retrieve_ids_perm (deep : List DeepRecord) :
    ((retrieve_undreamed_memories deep).map (·.id)).Perm
      ((deep.filter fun r => !r.dreamed).map (·.id)) := by
  unfold retrieve_undreamed_memories
  rw [List.map_map]
  have h1 : ((fun d : DecryptedRecord => d.id) ∘ decodeRow) = fun r : DeepRecord => r.id :=
    funext fun r => decodeRow_id r
  rw [h1]
  exact (sortByTs_perm _).map _

theorem mem_retrieve_of_undreamed {r : DeepRecord} {deep : List DeepRecord}
    (hr : r ∈ deep) (hu : r.dreamed = false) :
    decodeRow r ∈ retrieve_undreamed_memories deep := by
  unfold retrieve_undreamed_memories
  refine List.mem_map_of_mem decodeRow ?_
  exact (sortByTs_perm _).mem_iff.mpr (List.mem_filter.mpr ⟨hr, by simp [hu]⟩)

theorem retrieve_not_isEmpty {r : DeepRecord} {deep : List DeepRecord}
    (hr : r ∈ deep) (hu : r.dreamed = false) :
    (retrieve_undreamed_memories deep).isEmpty = false := by
  have h := mem_retrieve_of_undreamed hr hu
  cases hmem : retrieve_undreamed_memories deep with
  | nil => rw [hmem] at h; cases h
  | cons a l => rfl

theorem retrieve_id_mem {r : DeepRecord} {deep : List DeepRecord}
    (hr : r ∈ deep) (hu : r.dreamed = false) :
    r.id ∈ (retrieve_undreamed_memories deep).map (·.id) := by
  have h := mem_retrieve_of_undreamed hr hu
  have := List.mem_map_of_mem (fun d : DecryptedRecord => d.id) h
  simpa [decodeRow_id] using this

/-! ## Lemmas about the dream-response parser -/

theorem foldl_dreamStep_no_cons (post : List String) (c : String) (nl : List String)
    (h : ∀ l ∈ post, isConsolidationLine l = false) :
    post.foldl dreamStep (c, nl) = (c, nl ++ post) := by
  induction post generalizing nl with
  | nil => simp
  | cons l rest ih =>
    have hl : isConsolidationLine l = false := h l (List.mem_cons_self l rest)
    have hrest : ∀ x ∈ rest, isConsolidationLine x = false :=
      fun x hx => h x (List.mem_cons_of_mem l hx)
    rw [List.foldl_cons]
    have hstep : dreamStep (c, nl) l = (c, nl ++ [l]) := by simp [dreamStep, hl]
    rw [hstep, ih (nl ++ [l]) hrest, List.append_assoc]
    rfl

theorem parse_dream_lines_last_cons (pre post : List String) (lineC : String)
    (hC : isConsolidationLine lineC = true)
    (hpost : ∀ l ∈ post, isConsolidationLine l = false) :
    parse_dream_lines (pre ++ lineC :: post) =
      (consolidationOf lineC, (parse_dream_lines pre).2 ++ post) := by
  unfold parse_dream_lines
  rw [List.foldl_append, List.foldl_cons]
  have hstep : dreamStep (pre.foldl dreamStep (("" : String), ([] : List String))) lineC =
      (consolidationOf lineC, (pre.foldl dreamStep (("" : String), ([] : List String))).2) := by
    simp [dreamStep, hC]
  rw [hstep]
  exact foldl_dreamStep_no_cons post _ _ hpost

theorem generate_dream_no_cons (text : String)
    (h : ∀ line ∈ (pySplitLines (pyStrip text)).drop 1, isConsolidationLine line = false) :
    (generate_dream text).consolidation = ("") := by
  unfold generate_dream parse_dream_lines
  simp only
  rw [foldl_dreamStep_no_cons _ _ _ h]

/-! ## Characterizations of the three outcomes of the dream cycle -/

theorem run_dream_cycle_dreamless_eq (gen : Except GenError String) (now date_str : String)
    (s : Sys) (h : (retrieve_undreamed_memories s.deep).isEmpty = true) :
    run_dream_cycle gen now date_str s =
      ({ s with agent := { s.agent with last_dream := some now, dream_count := some 0 } },
       Except.ok none) := by
  unfold run_dream_cycle cycleEvents
  simp [h, applyEvents, applyEvent]

theorem run_dream_cycle_error_eq (e : GenError) (now date_str : String) (s : Sys)
    (h : (retrieve_undreamed_memories s.deep).isEmpty = false) :
    run_dream_cycle (Except.error e) now date_str s = (s, Except.error e) := by
  unfold run_dream_cycle cycleEvents
  simp [h, applyEvents]

theorem run_dream_cycle_ok_eq (text now date_str : String) (s : Sys)
    (h : (retrieve_undreamed_memories s.deep).isEmpty = false) :
    run_dream_cycle (Except.ok text) now date_str s =
      ({ deep := mark_as_dreamed now ((retrieve_undreamed_memories s.deep).map (·.id)) s.deep
         working :=
           if (generate_dream text).consolidation = ("") then s.working
           else consolidate_dream_insight now (generate_dream text).consolidation s.working
         agent := { s.agent with
                    last_dream := some now
                    total_dreams := some (s.agent.total_dreams.getD 0 + 1)
                    latest_dream_title := some (generate_dream text).title }
         archive := s.archive ++
           [save_dream_locally (generate_dream text) date_str] },
       Except.ok (some (generate_dream text))) := by
  unfold run_dream_cycle cycleEvents
  by_cases hc : (generate_dream text).consolidation = ("")
  · simp [h, hc, applyEvents, applyEvent]
  · simp [h, hc, applyEvents, applyEvent]

/-! ## Claim C10 -/

/-- C10: when the Working Store is empty, renderContext returns the fixed
sentinel string for every character budget, rather than an empty string
or an omitted-entries line. -/
theorem C10_empty_working_context (max_tokens_approx : Nat) :
    get_working_memory_context [] max_tokens_approx =
      ("No memories yet. This is my first day.") := rfl

/-! ## Claim C3 -/

/-- C3: for every sequence of append calls to the Working Store starting
from empty, after each append (that is, for every prefix of the call
sequence, here quantified as the whole sequence) the stored size never
exceeds WORKING_MEMORY_MAX_ENTRIES, and the retained entries are exactly
the most recent WORKING_MEMORY_MAX_ENTRIES insertions in their original
insertion order. Each element of inserts carries the arguments of one
store_working_memory call: timestamp, summary, category, metadata. -/
theorem C3_working_store_cap (inserts : List (String × String × String × Option Metadata)) :
    (inserts.foldl
        (fun ms a => store_working_memory a.1 a.2.1 a.2.2.1 a.2.2.2 ms) []).length ≤
      WORKING_MEMORY_MAX_ENTRIES ∧
    inserts.foldl (fun ms a => store_working_memory a.1 a.2.1 a.2.2.1 a.2.2.2 ms) [] =
      lastN WORKING_MEMORY_MAX_ENTRIES
        (inserts.map fun a => wmEntryOf a.1 a.2.1 a.2.2.1 a.2.2.2) := by
  have key : ∀ ins : List (String × String × String × Option Metadata),
      ins.foldl (fun ms a => store_working_memory a.1 a.2.1 a.2.2.1 a.2.2.2 ms) [] =
        lastN WORKING_MEMORY_MAX_ENTRIES
          (ins.map fun a => wmEntryOf a.1 a.2.1 a.2.2.1 a.2.2.2) := by
    intro ins
    induction ins using List.reverseRecOn with
    | nil => rfl
    | append_singleton ins a ih =>
      rw [List.foldl_append, List.foldl_cons, List.foldl_nil, ih, List.map_append,
        store_working_memory_eq_lastN]
      exact lastN_append_one _ (by decide) _ _
  exact ⟨key inserts ▸ lastN_length_le _ _, key inserts⟩

/-! ## Claim C2 -/

/-- A concrete undreamed deep record used to exercise mark_as_dreamed. -/
def c2Record : DeepRecord :=
  { id := 1, timestamp := ("2026-01-01T00:00:00"), category := ("interaction")
    blob := Blob.valid ("payload"), content_hash := ("payload"), dreamed := false
    dream_date := none }

/-- C2 (counterexample): marking the same id twice at two different call
times does not leave the store in the state one call produced, because
the second call re-stamps dream_date on the already-processed record;
so neither the claimed idempotence nor the claimed only-new-ids stamping
holds as stated. -/
theorem C2_counterexample :
    (mark_as_dreamed ("t1") [1] [c2Record]).map (fun r => (r.dreamed, r.dream_date)) =
      [(true, some ("t1"))] ∧
    (mark_as_dreamed ("t2") [1] (mark_as_dreamed ("t1") [1] [c2Record])).map
        (fun r => (r.dreamed, r.dream_date)) = [(true, some ("t2"))] ∧
    mark_as_dreamed ("t2") [1] (mark_as_dreamed ("t1") [1] [c2Record]) ≠
      mark_as_dreamed ("t1") [1] [c2Record] := by decide

/-- C2 (amended): mark_as_dreamed raises no error and is absorbing
rather than state-idempotent: it stamps dreamed and dream_date with the
call time for every listed id, already-processed ids included, so two
successive calls with the same ids leave the store exactly as a single
call made at the time of the second call (and hence calling twice at one
timestamp equals calling once). -/
theorem C2_amended_mark_restamps (t1 t2 : String) (ids : List Nat) (deep : List DeepRecord) :
    mark_as_dreamed t2 ids (mark_as_dreamed t1 ids deep) = mark_as_dreamed t2 ids deep ∧
    ∀ r ∈ mark_as_dreamed t2 ids deep, ids.contains r.id = true →
      r.dreamed = true ∧ r.dream_date = some t2 := by
  constructor
  · cases h : ids.isEmpty with
    | true => simp [mark_as_dreamed, h]
    | false =>
      simp only [mark_as_dreamed, h, Bool.false_eq_true, if_false, List.map_map]
      refine congrArg (fun f => List.map f deep) (funext fun r => ?_)
      by_cases hc : r.id ∈ ids
      · simp [hc]
      · simp [hc]
  · intro r hr hcont
    cases h : ids.isEmpty with
    | true =>
      rw [List.isEmpty_iff] at h
      subst h
      simp at hcont
    | false =>
      rw [mark_as_dreamed] at hr
      simp only [h, Bool.false_eq_true, if_false] at hr
      rcases List.mem_map.mp hr with ⟨r0, _, rfl⟩
      by_cases hc : r0.id ∈ ids
      · simp [hc]
      · simp [hc] at hcont

/-- The record c2Record after being stamped at time b. -/
def c2Marked : DeepRecord := { c2Record with dreamed := true, dream_date := some ("b") }

/-- C2 (witness): the amended statement instantiated on a concrete
one-record store and the concrete call times a then b. -/
theorem C2_amended_witness :
    (c2Marked ∈ mark_as_dreamed ("b") [1] [c2Record] ∧ [1].contains c2Marked.id = true) ∧
    mark_as_dreamed ("b") [1] (mark_as_dreamed ("a") [1] [c2Record]) =
      mark_as_dreamed ("b") [1] [c2Record] ∧
    (c2Marked.dreamed = true ∧ c2Marked.dream_date = some ("b")) :=
  ⟨⟨by decide, by decide⟩, (C2_amended_mark_restamps ("a") ("b") [1] [c2Record]).1,
   (C2_amended_mark_restamps ("a") ("b") [1] [c2Record]).2 c2Marked (by decide) (by decide)⟩

/-! ## Claim C9 -/

/-- C9: remember writes the summary to the Working Store and then the
full context to the Deep Store, under the same category and in that
order (the event list); when the Deep Store write fails after the
Working Store write succeeded, the working entry remains, the deep
store is untouched, and the error is surfaced. -/
theorem C9_remember_dual_write (now summary full_context category : String)
    (s : Sys) (e : StoreErr) :
    ((remember now summary full_context category none s).1.working =
        lastN WORKING_MEMORY_MAX_ENTRIES (s.working ++ [wmEntryOf now summary category none]) ∧
     (remember now summary full_context category none s).1.deep =
        s.deep ++ [{ id := nextId s.deep, timestamp := now, category := category
                     blob := Blob.valid full_context, content_hash := full_context
                     dreamed := false, dream_date := none }] ∧
     (remember now summary full_context category none s).2.1 =
        [Event.workingWrite now summary category none,
         Event.deepWrite now full_context category] ∧
     (remember now summary full_context category none s).2.2 = none) ∧
    ((remember now summary full_context category (some e) s).1.working =
        lastN WORKING_MEMORY_MAX_ENTRIES (s.working ++ [wmEntryOf now summary category none]) ∧
     (remember now summary full_context category (some e) s).1.deep = s.deep ∧
     (remember now summary full_context category (some e) s).2.2 = some e ∧
     (remember now summary full_context category (some e) s).2.1 =
        [Event.workingWrite now summary category none]) := by
  refine ⟨⟨?_, ?_, rfl, rfl⟩, ?_, rfl, rfl, rfl⟩ <;>
    simp [remember, store_deep_memory, store_working_memory_eq_lastN]

/-! ## Claim C5 -/

/-- C5: a failure of the generation collaborator during Synthesizing
(here: the cycle runs on a store with at least one unprocessed record,
so Synthesizing is reached) aborts the dream cycle before any state
mutation: the post-state equals the pre-state (no record marked, nothing
promoted, nothing archived), the error is surfaced to the caller, and a
retry sees the same unprocessed records. -/
theorem C5_generation_failure_aborts (e : GenError) (now date_str : String) (s : Sys)
    (h : (retrieve_undreamed_memories s.deep).isEmpty = false) :
    run_dream_cycle (Except.error e) now date_str s = (s, Except.error e) ∧
    retrieve_undreamed_memories (run_dream_cycle (Except.error e) now date_str s).1.deep =
      retrieve_undreamed_memories s.deep := by
  have hrun := run_dream_cycle_error_eq e now date_str s h
  exact ⟨hrun, by rw [hrun]⟩

/-- A one-record system state used to instantiate the failure and
corruption scenarios. -/
def c5Sys : Sys :=
  { deep := [{ id := 1, timestamp := ("2026-01-01T00:00:00"), category := ("interaction")
               blob := Blob.valid ("payload"), content_hash := ("payload"), dreamed := false
               dream_date := none }]
    working := []
    agent := { last_dream := none, dream_count := none, total_dreams := none
               latest_dream_title := none }
    archive := [] }

/-- C5 (witness): the abort statement instantiated on a concrete
one-record store and a concrete collaborator error. -/
theorem C5_witness :
    ((retrieve_undreamed_memories c5Sys.deep).isEmpty = false) ∧
    run_dream_cycle (Except.error { msg := ("api down") }) ("2026-01-02T00:00:00")
        ("2026-01-02") c5Sys = (c5Sys, Except.error { msg := ("api down") }) ∧
    retrieve_undreamed_memories
        (run_dream_cycle (Except.error { msg := ("api down") }) ("2026-01-02T00:00:00")
          ("2026-01-02") c5Sys).1.deep =
      retrieve_undreamed_memories c5Sys.deep :=
  ⟨by decide,
   C5_generation_failure_aborts { msg := ("api down") } ("2026-01-02T00:00:00")
     ("2026-01-02") c5Sys (by decide)⟩

/-! ## Claim C7 -/

/-- C7: a dream cycle invoked with zero unprocessed deep records returns
none, performs no archive write and no Working Store promotion, leaves
the Deep Store untouched and the dream count (total_dreams) unchanged,
and records the dreamless-night marker (the last_dream timestamp). -/
theorem C7_dreamless_cycle (gen : Except GenError String) (now date_str : String) (s : Sys)
    (h : (retrieve_undreamed_memories s.deep).isEmpty = true) :
    (run_dream_cycle gen now date_str s).2 = Except.ok none ∧
    (run_dream_cycle gen now date_str s).1.archive = s.archive ∧
    (run_dream_cycle gen now date_str s).1.working = s.working ∧
    (run_dream_cycle gen now date_str s).1.deep = s.deep ∧
    (run_dream_cycle gen now date_str s).1.agent.total_dreams = s.agent.total_dreams ∧
    (run_dream_cycle gen now date_str s).1.agent.last_dream = some now := by
  rw [run_dream_cycle_dreamless_eq gen now date_str s h]
  exact ⟨rfl, rfl, rfl, rfl, rfl, rfl⟩

/-- A system state whose deep store has only already-dreamed records, so
a cycle on it is dreamless. -/
def c7Sys : Sys :=
  { deep := [{ id := 1, timestamp := ("2026-01-01T00:00:00"), category := ("interaction")
               blob := Blob.valid ("payload"), content_hash := ("payload"), dreamed := true
               dream_date := some ("2026-01-01T12:00:00") }]
    working := []
    agent := { last_dream := none, dream_count := none, total_dreams := some 7
               latest_dream_title := none }
    archive := [] }

/-- C7 (witness): the dreamless statement instantiated on a concrete
store with no unprocessed records. -/
theorem C7_witness :
    ((retrieve_undreamed_memories c7Sys.deep).isEmpty = true) ∧
    (run_dream_cycle (Except.ok ("unused")) ("t") ("d") c7Sys).2 = Except.ok none ∧
    (run_dream_cycle (Except.ok ("unused")) ("t") ("d") c7Sys).1.archive = c7Sys.archive ∧
    (run_dream_cycle (Except.ok ("unused")) ("t") ("d") c7Sys).1.working = c7Sys.working ∧
    (run_dream_cycle (Except.ok ("unused")) ("t") ("d") c7Sys).1.deep = c7Sys.deep ∧
    (run_dream_cycle (Except.ok ("unused")) ("t") ("d") c7Sys).1.agent.total_dreams =
      c7Sys.agent.total_dreams ∧
    (run_dream_cycle (Except.ok ("unused")) ("t") ("d") c7Sys).1.agent.last_dream =
      some ("t") :=
  ⟨by decide, C7_dreamless_cycle (Except.ok ("unused")) ("t") ("d") c7Sys (by decide)⟩

/-! ## Claim C4 -/

/-- On a store with strictly increasing ids (the AUTOINCREMENT
invariant), a record is determined by its id. -/
theorem pairwise_id_inj {l : List DeepRecord} (h : l.Pairwise fun a b => a.id < b.id)
    {a b : DeepRecord} (ha : a ∈ l) (hb : b ∈ l) (hab : a.id = b.id) : a = b := by
  induction l with
  | nil => cases ha
  | cons x xs ih =>
    rcases List.pairwise_cons.mp h with ⟨hx, hxs⟩
    rcases List.mem_cons.mp ha with rfl | ha2
    · rcases List.mem_cons.mp hb with rfl | hb2
      · rfl
      · have hlt := hx b hb2
        rw [hab] at hlt
        exact absurd hlt (lt_irrefl _)
    · rcases List.mem_cons.mp hb with rfl | hb2
      · have hlt := hx a ha2
        rw [hab] at hlt
        exact absurd hlt (lt_irrefl _)
      · exact ih hxs ha2 hb2

/-- C4: listUnprocessed returns exactly the records whose processed flag
is false — the returned ids are a permutation of the ids of the unprocessed
rows and every returned element comes from an unprocessed row (so never
from one with processed = true, ids being unique) — and the result is
ordered by timestamp ascending with ties broken by id ascending. The
hypothesis is the AUTOINCREMENT invariant: row ids strictly increase in
insertion order. -/
theorem C4_list_unprocessed (deep : List DeepRecord)
    (hids : deep.Pairwise fun a b => a.id < b.id) :
    ((retrieve_undreamed_memories deep).map (·.id)).Perm
      ((deep.filter fun r => !r.dreamed).map (·.id)) ∧
    (∀ d ∈ retrieve_undreamed_memories deep,
      ∃ r ∈ deep, r.dreamed = false ∧ r.id = d.id ∧ r.timestamp = d.timestamp) ∧
    (retrieve_undreamed_memories deep).Pairwise specOrder := by
  refine ⟨retrieve_ids_perm deep, ?_, ?_⟩
  · intro d hd
    unfold retrieve_undreamed_memories at hd
    rcases List.mem_map.mp hd with ⟨r, hr, rfl⟩
    have hrmem : r ∈ deep.filter fun r => !r.dreamed := (sortByTs_perm _).mem_iff.mp hr
    rcases List.mem_filter.mp hrmem with ⟨hrdeep, hrb⟩
    exact ⟨r, hrdeep, by simpa using hrb, (decodeRow_id r).symm, (decodeRow_timestamp r).symm⟩
  · unfold retrieve_undreamed_memories
    rw [List.pairwise_map]
    refine (sortByTs_pairwise _ (hids.filter _)).imp ?_
    intro a b hab
    rcases hab with h | ⟨he, hid⟩
    · exact Or.inl (by rw [decodeRow_timestamp, decodeRow_timestamp]; exact h)
    · exact Or.inr ⟨by rw [decodeRow_timestamp, decodeRow_timestamp, he],
        by rw [decodeRow_id, decodeRow_id]; exact hid⟩

/-- A four-row store exercising the query: two rows share a timestamp,
one row is corrupt, one row is already dreamed. -/
def c4Deep : List DeepRecord :=
  [{ id := 1, timestamp := ("2026-01-02T00:00:00"), category := ("interaction")
     blob := Blob.valid ("p1"), content_hash := ("p1"), dreamed := false, dream_date := none },
   { id := 2, timestamp := ("2026-01-01T00:00:00"), category := ("feed_scan")
     blob := Blob.valid ("p2"), content_hash := ("p2"), dreamed := false, dream_date := none },
   { id := 3, timestamp := ("2026-01-01T00:00:00"), category := ("interaction")
     blob := Blob.corrupt, content_hash := ("p3"), dreamed := false, dream_date := none },
   { id := 4, timestamp := ("2026-01-01T06:00:00"), category := ("interaction")
     blob := Blob.valid ("p4"), content_hash := ("p4"), dreamed := true
     dream_date := some ("2026-01-01T23:00:00") }]

/-- C4 (witness): the query statement instantiated on the concrete
four-row store. -/
theorem C4_witness :
    c4Deep.Pairwise (fun a b => a.id < b.id) ∧
    (((retrieve_undreamed_memories c4Deep).map (·.id)).Perm
        ((c4Deep.filter fun r => !r.dreamed).map (·.id)) ∧
     (∀ d ∈ retrieve_undreamed_memories c4Deep,
        ∃ r ∈ c4Deep, r.dreamed = false ∧ r.id = d.id ∧ r.timestamp = d.timestamp) ∧
     (retrieve_undreamed_memories c4Deep).Pairwise specOrder) :=
  ⟨by decide, C4_list_unprocessed c4Deep (by decide)⟩

/-! ## Claim C1 -/

/-- An undreamed deep record whose ciphertext no longer decrypts. -/
def c1Rec : DeepRecord :=
  { id := 1, timestamp := ("2026-01-01T00:00:00"), category := ("interaction")
    blob := Blob.corrupt, content_hash := ("p"), dreamed := false, dream_date := none }

/-- A system state holding only the corrupted record. -/
def c1Sys : Sys :=
  { deep := [c1Rec]
    working := []
    agent := { last_dream := none, dream_count := none, total_dreams := none
               latest_dream_title := none }
    archive := [] }

/-- C1 (counterexample): the corrupted record is surfaced (id 1 is
returned with category corrupted and placeholder content, no exception),
but after a dream cycle that collected it, its processed flag is true:
run_dream_cycle marks every collected record, corrupted ones included,
so the flag does not remain false as claimed. -/
theorem C1_counterexample :
    (retrieve_undreamed_memories c1Sys.deep).map (fun d => (d.id, d.category, d.content)) =
      [(1, ("corrupted"), corruptedPlaceholder)] ∧
    ((run_dream_cycle (Except.ok ("T\nN\nCONSOLIDATION: x")) ("2026-01-02T00:00:00"))
        ("2026-01-02") c1Sys).1.deep.map (fun r => (r.id, r.dreamed)) = [(1, true)] := by
  decide

/-- C1 (amended): a record whose decryption or deserialization failed is
surfaced in the returned sequence with category corrupted and
placeholder content (no exception propagates); however, the dream cycle
that collected it does auto-mark it processed together with the other
collected records — the cycle completes normally and every record
carrying the id of the corrupted record ends up with processed = true, with
no explicit markProcessed needed. -/
theorem C1_corrupted_surfaced_then_marked (s : Sys) (r : DeepRecord)
    (text now date_str : String)
    (hr : r ∈ s.deep) (hu : r.dreamed = false) (hb : r.blob = Blob.corrupt) :
    (∃ d ∈ retrieve_undreamed_memories s.deep,
        d.id = r.id ∧ d.category = ("corrupted") ∧ d.content = corruptedPlaceholder) ∧
    (run_dream_cycle (Except.ok text) now date_str s).2 =
      Except.ok (some (generate_dream text)) ∧
    ∀ r2 ∈ (run_dream_cycle (Except.ok text) now date_str s).1.deep,
      r2.id = r.id → r2.dreamed = true := by
  have hne := retrieve_not_isEmpty hr hu
  refine ⟨⟨decodeRow r, mem_retrieve_of_undreamed hr hu, decodeRow_id r, ?_, ?_⟩, ?_, ?_⟩
  · unfold decodeRow
    rw [hb]
  · unfold decodeRow
    rw [hb]
  · rw [run_dream_cycle_ok_eq text now date_str s hne]
  · intro r2 hr2 hid
    rw [run_dream_cycle_ok_eq text now date_str s hne] at hr2
    have hidmem : r.id ∈ (retrieve_undreamed_memories s.deep).map (·.id) :=
      retrieve_id_mem hr hu
    have hne2 : ((retrieve_undreamed_memories s.deep).map (·.id)).isEmpty = false := by
      cases hmm : (retrieve_undreamed_memories s.deep).map (·.id) with
      | nil => rw [hmm] at hidmem; cases hidmem
      | cons a l => rfl
    rw [mark_as_dreamed] at hr2
    simp only [hne2, Bool.false_eq_true, if_false] at hr2
    rcases List.mem_map.mp hr2 with ⟨r0, _, rfl⟩
    by_cases hc : r0.id ∈ (retrieve_undreamed_memories s.deep).map (·.id)
    · simp [hc]
    · have hr0id : r0.id = r.id := by simpa [hc] using hid
      exact absurd (hr0id.symm ▸ hidmem) hc

/-- C1 (witness): the amended statement instantiated on the concrete
one-corrupted-record store. -/
theorem C1_amended_witness :
    (c1Rec ∈ c1Sys.deep ∧ c1Rec.dreamed = false ∧ c1Rec.blob = Blob.corrupt) ∧
    ((∃ d ∈ retrieve_undreamed_memories c1Sys.deep,
        d.id = c1Rec.id ∧ d.category = ("corrupted") ∧ d.content = corruptedPlaceholder) ∧
     (run_dream_cycle (Except.ok ("T\nCONSOLIDATION: x")) ("t") ("d") c1Sys).2 =
        Except.ok (some (generate_dream ("T\nCONSOLIDATION: x"))) ∧
     ∀ r2 ∈ (run_dream_cycle (Except.ok ("T\nCONSOLIDATION: x")) ("t") ("d") c1Sys).1.deep,
        r2.id = c1Rec.id → r2.dreamed = true) :=
  ⟨⟨by decide, by decide, by decide⟩,
   C1_corrupted_surfaced_then_marked c1Sys c1Rec ("T\nCONSOLIDATION: x") ("t") ("d")
     (by decide) (by decide) (by decide)⟩

/-! ## Claim C6 -/

/-- C6: parsing a generation response. First, the concrete scenario:
the response with a title line, two narrative lines and one
CONSOLIDATION line parses to the expected triple. Second, a response
with no consolidation line among the lines after the title yields an
empty consolidation. Third, the general extraction rule on the
post-title lines: the last CONSOLIDATION line wins, its remainder after
the colon (trimmed) becomes the consolidation, and it is removed from
the narrative lines, which keep their order. -/
theorem C6_dream_parse :
    (generate_dream ("Title\nLine one\nCONSOLIDATION: insight text\nLine two") =
      { title := ("Title"), narrative := ("Line one\nLine two")
        consolidation := ("insight text") }) ∧
    (∀ text : String,
      (∀ line ∈ (pySplitLines (pyStrip text)).drop 1, isConsolidationLine line = false) →
      (generate_dream text).consolidation = ("")) ∧
    (∀ (pre post : List String) (lineC : String),
      isConsolidationLine lineC = true →
      (∀ l ∈ post, isConsolidationLine l = false) →
      parse_dream_lines (pre ++ lineC :: post) =
        (consolidationOf lineC, (parse_dream_lines pre).2 ++ post)) :=
  ⟨by decide, generate_dream_no_cons, parse_dream_lines_last_cons⟩

/-- C6 (witness): the two conditional parts instantiated on concrete
responses. -/
theorem C6_witness :
    ((∀ line ∈ (pySplitLines (pyStrip ("A\nB"))).drop 1, isConsolidationLine line = false) ∧
     (generate_dream ("A\nB")).consolidation = ("")) ∧
    (isConsolidationLine ("CONSOLIDATION: z") = true ∧
     (∀ l ∈ [("tail")], isConsolidationLine l = false) ∧
     parse_dream_lines ([("x")] ++ ("CONSOLIDATION: z") :: [("tail")]) =
       (consolidationOf ("CONSOLIDATION: z"), (parse_dream_lines [("x")]).2 ++ [("tail")])) :=
  ⟨⟨by decide, C6_dream_parse.2.1 ("A\nB") (by decide)⟩,
   by decide, by decide,
   C6_dream_parse.2.2 [("x")] [("tail")] ("CONSOLIDATION: z") (by decide) (by decide)⟩

/-! ## Claim C8 -/

/-- The entry just appended by store_working_memory is always retained:
the prune keeps the newest WORKING_MEMORY_MAX_ENTRIES entries and the
cap is positive. -/
theorem mem_store_working_memory_self (now sm cat : String) (md : Option Metadata)
    (w : List WMEntry) :
    wmEntryOf now sm cat md ∈ store_working_memory now sm cat md w := by
  rw [store_working_memory_eq_lastN]
  unfold lastN
  have hle : (w ++ [wmEntryOf now sm cat md]).length - WORKING_MEMORY_MAX_ENTRIES ≤
      w.length := by
    simp only [List.length_append, List.length_singleton]
    have : 0 < WORKING_MEMORY_MAX_ENTRIES := by decide
    omega
  rw [List.drop_append_of_le_length hle]
  exact List.mem_append_right _ (List.mem_singleton_self _)

/-- C8: promotion precedes marking. For every prefix of the mutation
events a dream cycle with a non-empty consolidation performs, if the
prefix state already shows some cycle-collected record marked processed
(its id was collected, its flag is now true), then that prefix state's
Working Store already contains the promoted dream-insight entry. The
Pairwise hypothesis is the AUTOINCREMENT invariant on ids. -/
theorem C8_promotion_precedes_marking (text now date_str : String) (s : Sys) (n : Nat)
    (hids : s.deep.Pairwise fun a b => a.id < b.id)
    (hcons : (generate_dream text).consolidation ≠ ("")) :
    (∃ r2 ∈ (applyEvents s ((cycleEvents (Except.ok text) now date_str s).1.take n)).deep,
        ((retrieve_undreamed_memories s.deep).map (·.id)).contains r2.id = true ∧
        r2.dreamed = true) →
    ∃ e2 ∈ (applyEvents s ((cycleEvents (Except.ok text) now date_str s).1.take n)).working,
      e2.summary = ("[DREAM INSIGHT] ") ++ (generate_dream text).consolidation ∧
      e2.category = ("dream_consolidation") := by
  intro hmark
  by_cases hE : (retrieve_undreamed_memories s.deep).isEmpty = true
  · rcases hmark with ⟨r2, _, hcont, _⟩
    rw [List.isEmpty_iff] at hE
    rw [hE] at hcont
    simp at hcont
  · have hne : (retrieve_undreamed_memories s.deep).isEmpty = false :=
      Bool.eq_false_iff.mpr hE
    have hnomark : ∀ r2 ∈ s.deep, r2.dreamed = true →
        ((retrieve_undreamed_memories s.deep).map (·.id)).contains r2.id = true → False := by
      intro r2 hr2 hdr hcont
      have hidmem : r2.id ∈ (retrieve_undreamed_memories s.deep).map (·.id) := by
        simpa using hcont
      have hidmem2 : r2.id ∈ (s.deep.filter fun r => !r.dreamed).map (·.id) :=
        (retrieve_ids_perm s.deep).mem_iff.mp hidmem
      rcases List.mem_map.mp hidmem2 with ⟨u, hu, huid⟩
      rcases List.mem_filter.mp hu with ⟨hudeep, hub⟩
      have hue : u = r2 := pairwise_id_inj hids hudeep hr2 huid
      rw [hue] at hub
      simp [hdr] at hub
    have htr : (cycleEvents (Except.ok text) now date_str s).1 =
        [Event.archiveWrite (save_dream_locally (generate_dream text) date_str).1
           (save_dream_locally (generate_dream text) date_str).2,
         Event.promote now (generate_dream text).consolidation,
         Event.mark now ((retrieve_undreamed_memories s.deep).map (·.id)),
         Event.stateSave
           { s.agent with
             last_dream := some now
             total_dreams := some (s.agent.total_dreams.getD 0 + 1)
             latest_dream_title := some (generate_dream text).title }] := by
      unfold cycleEvents
      simp [hne, hcons]
    rcases Nat.lt_or_ge n 3 with h3 | h3
    · have hdeep : (applyEvents s ((cycleEvents (Except.ok text) now date_str s).1.take n)).deep =
          s.deep := by
        interval_cases n <;> simp [htr, applyEvents, applyEvent]
      rcases hmark with ⟨r2, hr2, hcont, hdr⟩
      rw [hdeep] at hr2
      exact (hnomark r2 hr2 hdr hcont).elim
    · have hwork :
          (applyEvents s ((cycleEvents (Except.ok text) now date_str s).1.take n)).working =
            consolidate_dream_insight now (generate_dream text).consolidation s.working := by
        rcases Nat.lt_or_ge n 4 with h4 | h4
        · have hn3 : n = 3 := by omega
          subst hn3
          simp [htr, applyEvents, applyEvent]
        · rw [htr, List.take_of_length_le (by simp; omega)]
          simp [applyEvents, applyEvent]
      refine ⟨wmEntryOf now (("[DREAM INSIGHT] ") ++ (generate_dream text).consolidation)
        ("dream_consolidation") none, ?_, rfl, rfl⟩
      rw [hwork]
      unfold consolidate_dream_insight
      exact mem_store_working_memory_self _ _ _ _ _

/-- The dream response used to exercise claim C8. -/
def c8Text : String := ("T\nCONSOLIDATION: x")

/-- A one-valid-record system state used to exercise claim C8. -/
def c8Sys : Sys :=
  { deep := [{ id := 1, timestamp := ("2026-01-01T00:00:00"), category := ("interaction")
               blob := Blob.valid ("payload"), content_hash := ("payload"), dreamed := false
               dream_date := none }]
    working := []
    agent := { last_dream := none, dream_count := none, total_dreams := none
               latest_dream_title := none }
    archive := [] }

/-- C8 (witness): the ordering statement instantiated at the prefix of
length three (archive write, promotion, marking already applied) of a
concrete cycle. -/
theorem C8_witness :
    c8Sys.deep.Pairwise (fun a b => a.id < b.id) ∧
    (generate_dream c8Text).consolidation ≠ ("") ∧
    (∃ r2 ∈ (applyEvents c8Sys
        ((cycleEvents (Except.ok c8Text) ("t") ("d") c8Sys).1.take 3)).deep,
        ((retrieve_undreamed_memories c8Sys.deep).map (·.id)).contains r2.id = true ∧
        r2.dreamed = true) ∧
    (∃ e2 ∈ (applyEvents c8Sys
        ((cycleEvents (Except.ok c8Text) ("t") ("d") c8Sys).1.take 3)).working,
      e2.summary = ("[DREAM INSIGHT] ") ++ (generate_dream c8Text).consolidation ∧
      e2.category = ("dream_consolidation")) :=
  ⟨by decide, by decide, by decide,
   C8_promotion_precedes_marking c8Text ("t") ("d") c8Sys 3 (by decide) (by decide)
     (by decide)⟩

end ElectricSheep
